import Mathlib

set_option maxHeartbeats 1000000

/-!
Shallow embedding of the connection/session core of the tauri-app-with-cc
terminal application: message log, command history, hex/text codec,
connection validation and the connect state machine.  Pure functions are
translated from the TypeScript sources; JS strings are modelled as
`List Char` (UTF-16 code points), JS numbers that hold integers as `Int`
or `Nat`.
-/

/-- The set of characters matched by the JavaScript regex class `\s`
(and removed by `String.prototype.trim`), identified by code point. -/
def isJsWhitespace (c : Char) : Bool :=
  let n := c.toNat
  n = 0x20 || n = 0x09 || n = 0x0A || n = 0x0B || n = 0x0C || n = 0x0D ||
  n = 0xA0 || n = 0x1680 || (0x2000 ≤ n && n ≤ 0x200A) ||
  n = 0x2028 || n = 0x2029 || n = 0x202F || n = 0x205F || n = 0x3000 || n = 0xFEFF

/-- JavaScript `String.prototype.trim`: removes leading and trailing
whitespace. -/
def jsTrim (l : List Char) : List Char :=
  ((l.dropWhile isJsWhitespace).reverse.dropWhile isJsWhitespace).reverse

/-- ASCII-only model of JavaScript `String.prototype.toLowerCase`
(all strings handled by the claims are ASCII). -/
def jsToLower (c : Char) : Char :=
  if 65 ≤ c.toNat && c.toNat ≤ 90 then Char.ofNat (c.toNat + 32) else c

/-- Lowercase an entire string (character list). -/
def toLowerList (l : List Char) : List Char := l.map jsToLower

/-- `headMatches pat l` holds when `pat` occurs at the very start of `l`. -/
def headMatches : List Char → List Char → Bool
  | [], _ => true
  | _ :: _, [] => false
  | p :: ps, c :: cs => p == c && headMatches ps cs

/-- JavaScript `String.prototype.includes`: substring containment. -/
def includesSubstr : List Char → List Char → Bool
  | [], pat => pat.isEmpty
  | c :: rest, pat => headMatches pat (c :: rest) || includesSubstr rest pat

/- ---------------------------------------------------------------------
MessageLog (src/.backup/stores/terminal.ts, `addMessage`) and message
search (src/.backup/types/terminal.ts, `searchMessages`).
--------------------------------------------------------------------- -/

/-- Message direction, from `MessageDirection` in src/.backup/types/terminal.ts. -/
inductive MessageDirection
  | Sent
  | Received
deriving DecidableEq

/-- `TerminalMessage` from src/.backup/types/terminal.ts. -/
structure TerminalMessage where
  id : String
  timestamp : String
  direction : MessageDirection
  content : String
  encoding : String
deriving DecidableEq

/-- The list update performed by `addMessage` in
src/.backup/stores/terminal.ts: append at the tail, then if the length
exceeds `max_history_size` remove `length - max_history_size` entries
from the head (`splice(0, removeCount)`). -/
def addMessage (maxHistorySize : Nat) (messages : List TerminalMessage)
    (m : TerminalMessage) : List TerminalMessage :=
  let newMessages := messages ++ [m]
  if newMessages.length > maxHistorySize then
    newMessages.drop (newMessages.length - maxHistorySize)
  else
    newMessages

/-- Appending a whole sequence of messages one at a time. -/
def addMessages (maxHistorySize : Nat) (messages : List TerminalMessage)
    (incoming : List TerminalMessage) : List TerminalMessage :=
  incoming.foldl (addMessage maxHistorySize) messages

/-- The match predicate used by `searchMessages` in
src/.backup/types/terminal.ts: substring containment on the content,
lowercasing both sides unless `caseSensitive`. -/
def messageMatches (query : String) (caseSensitive : Bool)
    (m : TerminalMessage) : Bool :=
  let searchTerm := if caseSensitive then query.data else toLowerList query.data
  let content := if caseSensitive then m.content.data else toLowerList m.content.data
  includesSubstr content searchTerm

/-- `searchMessages` from src/.backup/types/terminal.ts: a query that is
empty after trimming returns the list unfiltered, otherwise the list is
filtered by substring containment. -/
def searchMessages (messages : List TerminalMessage) (query : String)
    (caseSensitive : Bool) : List TerminalMessage :=
  if (jsTrim query.data).isEmpty then messages
  else messages.filter (fun m => messageMatches query caseSensitive m)

/-- Helper to build a concrete message for examples. -/
def mkMsg (s : String) : TerminalMessage :=
  { id := s, timestamp := "", direction := MessageDirection.Received,
    content := s, encoding := "UTF-8" }

/- ---------------------------------------------------------------------
CommandHistory (src/.backup/stores/terminal.ts and
src/.backup/types/terminal.ts).
--------------------------------------------------------------------- -/

/-- `CommandHistory` from src/.backup/types/terminal.ts. -/
structure CommandHistory where
  commands : List String
  max_size : Nat
  current_index : Option Nat
deriving DecidableEq

/-- `createDefaultCommandHistory` from src/.backup/types/terminal.ts. -/
def createDefaultCommandHistory : CommandHistory :=
  { commands := [], max_size := 100, current_index := none }

/-- The state update performed by `addCommandToHistory` in
src/.backup/stores/terminal.ts: no-op on blank input; otherwise push
unless the command equals the most recent entry, shift the oldest entry
off when the capacity is exceeded, and reset the navigation cursor. -/
def addCommandToHistory (h : CommandHistory) (command : String) : CommandHistory :=
  if (jsTrim command.data).isEmpty then h
  else
    let afterPush :=
      if h.commands.getLast? ≠ some command then
        let pushed := h.commands ++ [command]
        let bounded := if pushed.length > h.max_size then pushed.drop 1 else pushed
        { h with commands := bounded }
      else h
    { afterPush with current_index := none }

/-- `getPreviousCommand` from src/.backup/stores/terminal.ts, returning
the produced command (null modelled as `none`) and the updated history. -/
def getPreviousCommand (h : CommandHistory) : Option String × CommandHistory :=
  if h.commands.length = 0 then (none, h)
  else
    match h.current_index with
    | none =>
      let newIndex := h.commands.length - 1
      (h.commands.get? newIndex, { h with current_index := some newIndex })
    | some i =>
      if 0 < i then
        (h.commands.get? (i - 1), { h with current_index := some (i - 1) })
      else
        (none, h)

/-- `getNextCommand` from src/.backup/stores/terminal.ts, returning the
produced command and the updated history.  Past the newest entry it
returns the empty string and resets the cursor. -/
def getNextCommand (h : CommandHistory) : Option String × CommandHistory :=
  match h.current_index with
  | none => (none, h)
  | some i =>
    if i < h.commands.length - 1 then
      (h.commands.get? (i + 1), { h with current_index := some (i + 1) })
    else
      (some "", { h with current_index := none })

/- ---------------------------------------------------------------------
Codec (src/src/lib/components/Terminal/TerminalInput.svelte:
`parseHexInput`, `appendLineEnding`; src/.backup/types/terminal.ts:
`getMessageDisplayContent`).
--------------------------------------------------------------------- -/

/-- A character removed by `parseHexInput`'s `replace` with the regex
class containing `\s`, `-` and `:` (code 45 is the dash, 58 the colon). -/
def isHexSeparator (c : Char) : Bool :=
  isJsWhitespace c || c.toNat = 45 || c.toNat = 58

/-- `hexString.replace` with that class and the `g` flag removes every
separator character. -/
def stripHexSeparators (l : List Char) : List Char :=
  l.filter (fun c => !(isHexSeparator c))

/-- A character matched by the regex class `[0-9A-Fa-f]`. -/
def isHexDigitChar (c : Char) : Bool :=
  let n := c.toNat
  (48 ≤ n && n ≤ 57) || (65 ≤ n && n ≤ 70) || (97 ≤ n && n ≤ 102)

/-- Numeric value of a hex digit, as computed by `parseInt(hex, 16)` on a
single digit. -/
def hexDigitVal (c : Char) : Nat :=
  let n := c.toNat
  if 48 ≤ n && n ≤ 57 then n - 48
  else if 65 ≤ n && n ≤ 70 then n - 55
  else if 97 ≤ n && n ≤ 102 then n - 87
  else 0

/-- The pairing loop of `parseHexInput`: `substr(i, 2)` chunks taken two
characters at a time; a final chunk of length one is skipped. -/
def pairBytes : List Char → List Nat
  | c1 :: c2 :: rest => (hexDigitVal c1 * 16 + hexDigitVal c2) :: pairBytes rest
  | _ => []

/-- `parseHexInput` from src/src/lib/components/Terminal/TerminalInput.svelte:
strip separators; if anything non-hex remains return the original input
unchanged (an error notification is shown but the text is still returned);
otherwise pair the digits into bytes rendered back as a code-unit string. -/
def parseHexInput (hexString : List Char) : List Char :=
  let cleanHex := stripHexSeparators hexString
  if cleanHex.all isHexDigitChar then
    (pairBytes cleanHex).map Char.ofNat
  else
    hexString

/-- The line-ending selector of TerminalInput.svelte
(values `None`, `CR`, `LF`, `CRLF`). -/
inductive LineEndingChoice
  | NoEnding
  | CR
  | LF
  | CRLF
deriving DecidableEq

/-- `appendLineEnding` from src/src/lib/components/Terminal/TerminalInput.svelte. -/
def appendLineEnding (lineEnding : LineEndingChoice) (text : List Char) : List Char :=
  match lineEnding with
  | LineEndingChoice.CR => text ++ ['\r']
  | LineEndingChoice.LF => text ++ ['\n']
  | LineEndingChoice.CRLF => text ++ ['\r', '\n']
  | LineEndingChoice.NoEnding => text

/-- Fuel-driven worker for JavaScript `String.prototype.replace` with a
global, plain-text pattern: scan left to right, replace each
non-overlapping occurrence, never rescan replacement text.  One unit of
fuel is spent per consumed input character, so `l.length` fuel suffices. -/
def replaceAllGo : Nat → List Char → List Char → List Char → List Char
  | 0, _, _, l => l
  | _ + 1, _, _, [] => []
  | fuel + 1, pat, rep, c :: rest =>
    if !pat.isEmpty && headMatches pat (c :: rest) then
      rep ++ replaceAllGo fuel pat rep ((c :: rest).drop pat.length)
    else
      c :: replaceAllGo fuel pat rep rest

/-- `text.replace(pat-as-regex-with-g, rep)` for a plain pattern. -/
def replaceAll (pat rep l : List Char) : List Char :=
  replaceAllGo l.length pat rep l

/-- `getMessageDisplayContent` from src/.backup/types/terminal.ts: the
four chained global replaces, applied left to right. -/
def getMessageDisplayContent (content : List Char) : List Char :=
  replaceAll ['\t'] ['→']
    (replaceAll ['\n'] ['↵', '\n']
      (replaceAll ['\r'] ['↵']
        (replaceAll ['\r', '\n'] ['↵', '\n'] content)))

/- ---------------------------------------------------------------------
Connection form validation (src/src/lib/stores.ts `actions.connect` and
the validators in the utils module).
--------------------------------------------------------------------- -/

/-- `validateSerialPort` from the utils module:
`port.trim().length > 0`. -/
def validateSerialPort (port : String) : Bool :=
  decide (0 < (jsTrim port.data).length)

/-- `validateTcpConnection` from the utils module: non-blank host and a
port in 1..65535. -/
def validateTcpConnection (host : String) (port : Nat) : Bool :=
  let hostValid := decide (0 < (jsTrim host.data).length)
  let portValid := decide (0 < port) && decide (port ≤ 65535)
  hostValid && portValid

/-- The `type` discriminator of the flat `ConnectionConfig` interface in
the types module used by src/src/lib/stores.ts. -/
inductive ConnectionKind
  | serial
  | tcp
deriving DecidableEq

/-- The flat `ConnectionConfig` interface used by src/src/lib/stores.ts
(optional fields are `Option`). -/
structure ConnectionFormConfig where
  id : String
  name : String
  kind : ConnectionKind
  serialPort : Option String
  baudRate : Option Nat
  host : Option String
  port : Option Nat
deriving DecidableEq

/-- Outcome of the validation phase of `actions.connect` in
src/src/lib/stores.ts: either the connection error message is stored and
the function returns before `invoke` runs (`rejected`), or control
reaches the `invoke` of the `connect_device` command (`commandIssued`). -/
inductive ConnectValidation
  | rejected (errorMessage : String)
  | commandIssued
deriving DecidableEq

/-- The validation phase of `actions.connect` in src/src/lib/stores.ts:
a serial form with an invalid (blank) port, or a tcp form with an
invalid host/port pair, stores an error and returns; otherwise the
`connect_device` command is issued. -/
def connectValidate (form : ConnectionFormConfig) : ConnectValidation :=
  match form.kind with
  | ConnectionKind.serial =>
    if !validateSerialPort (form.serialPort.getD "") then
      ConnectValidation.rejected "serial port not selected"
    else
      ConnectValidation.commandIssued
  | ConnectionKind.tcp =>
    if !validateTcpConnection (form.host.getD "") (form.port.getD 0) then
      ConnectValidation.rejected "invalid host or port"
    else
      ConnectValidation.commandIssued

/- ---------------------------------------------------------------------
TcpConfig form input handler
(src/src/lib/components/ConnectionPanel/TcpConfig.svelte).
--------------------------------------------------------------------- -/

/-- Leading decimal-digit run parser used by `parseInt` with no radix on
the numeric input's value: `none` models the `NaN` result. -/
def parseDigits (l : List Char) : Option Nat :=
  let digits := l.takeWhile (fun c => 48 ≤ c.toNat && c.toNat ≤ 57)
  if digits.isEmpty then none
  else some (digits.foldl (fun acc c => acc * 10 + (c.toNat - 48)) 0)

/-- JavaScript `parseInt(value)` on a decimal string: skip whitespace,
optional sign, parse the leading digit run. -/
def jsParseInt (s : String) : Option Int :=
  match s.data.dropWhile isJsWhitespace with
  | '-' :: rest => (parseDigits rest).map (fun n => -(n : Int))
  | '+' :: rest => (parseDigits rest).map (fun n => (n : Int))
  | l => (parseDigits l).map (fun n => (n : Int))

/-- The `max_reconnect_attempts` input handler in
src/src/lib/components/ConnectionPanel/TcpConfig.svelte:
`parseInt(e.currentTarget.value) || 3`.  Both `NaN` and `0` are falsy in
JavaScript, so both fall back to the default `3`. -/
def maxReconnectAttemptsInput (value : String) : Int :=
  match jsParseInt value with
  | none => 3
  | some n => if n = 0 then 3 else n

/- ---------------------------------------------------------------------
ConnectionManager connect (spec section 4.1).  The frontend stores under
src/ only call the Tauri `connect_device` command; the Rust
ConnectionManager that enforces the exclusivity invariant is not part of
the files under src/, so it is modelled from the spec below.
--------------------------------------------------------------------- -/

/-- `Serial` variant fields of `ConnectionConfig` from the spec data
model (section 3). -/
structure SerialParams where
  port : String
  baud_rate : Nat
  data_bits : Nat
  parity : String
  stop_bits : Nat
  flow_control : String
  timeout_ms : Nat
deriving DecidableEq

/-- `Tcp` variant fields of `ConnectionConfig` from the spec data model
(section 3). -/
structure TcpParams where
  host : String
  port : Nat
  connect_timeout_sec : Nat
  read_timeout_sec : Nat
  keep_alive : Bool
  keep_alive_interval_sec : Nat
  auto_reconnect : Bool
  reconnect_interval_sec : Nat
  max_reconnect_attempts : Nat
deriving DecidableEq

/-- The tagged transport variant of `ConnectionConfig` (spec section 3). -/
inductive ConfigVariant
  | Serial (p : SerialParams)
  | Tcp (p : TcpParams)
deriving DecidableEq

/-- `ConnectionConfig` from the spec data model (section 3). -/
structure ConnectionConfigSpec where
  id : String
  name : String
  variant : ConfigVariant
deriving DecidableEq

/-- `ConnectionStatus` from the spec data model (section 3). -/
inductive ConnStatus
  | Disconnected
  | Connecting
  | Connected
  | ErrorStatus (reason : String)
deriving DecidableEq

/-- Modelled from the spec: the observable session state owned by the
Rust ConnectionManager (current connection, status, live transport),
which is not among the files under src/ — the frontend stores only call
its `connect_device` command.  The live `TransportHandler` is
represented by the variant it was opened with. -/
structure ManagerState where
  status : ConnStatus
  current : Option ConnectionConfigSpec
  transport : Option ConfigVariant
deriving DecidableEq

/-- `ConnectionError` kinds from the spec error taxonomy (section 7). -/
inductive ConnectionErrorKind
  | AlreadyConnected
  | ConfigurationError
  | TransportOpenError
  | NotConnectedError
deriving DecidableEq

/-- Modelled from the spec: `ConnectionManager.connect` (section 4.1),
whose Rust implementation is not among the files under src/.  It fails
immediately with `AlreadyConnected` when the status is `Connecting` or
`Connected`, leaving the state untouched; otherwise it transitions to
`Connecting`, opens the matching transport (`openOk` abstracts the open
result), and on success transitions to `Connected`; on failure it passes
through `Error` and settles in `Disconnected` (section 4.1 state
machine).  The returned list is the sequence of states traversed, `[st]`
when nothing changed. -/
def connectMgr (cfg : ConnectionConfigSpec) (openOk : Bool)
    (st : ManagerState) : Except ConnectionErrorKind Unit × List ManagerState :=
  if st.status = ConnStatus.Connecting ∨ st.status = ConnStatus.Connected then
    (Except.error ConnectionErrorKind.AlreadyConnected, [st])
  else
    let connecting : ManagerState := { st with status := ConnStatus.Connecting }
    if openOk then
      (Except.ok (),
        [connecting,
         { status := ConnStatus.Connected, current := some cfg,
           transport := some cfg.variant }])
    else
      (Except.error ConnectionErrorKind.TransportOpenError,
        [connecting,
         { status := ConnStatus.ErrorStatus "transport open failed",
           current := none, transport := none },
         { status := ConnStatus.Disconnected, current := none, transport := none }])

/-- A resting manager state: per the section 4.1 state machine the
`Error` status immediately transitions onward to `Disconnected`, so the
manager is never observed at rest with an `Error` status. -/
def ManagerState.resting (st : ManagerState) : Prop :=
  ∀ r, st.status ≠ ConnStatus.ErrorStatus r

/- ---------------------------------------------------------------------
Theorems.
--------------------------------------------------------------------- -/

theorem addMessage_length_le (cap : Nat) (msgs : List TerminalMessage)
    (m : TerminalMessage) :
    (addMessage cap msgs m).length ≤ cap := by
  simp only [addMessage]
  split
  · simp
    omega
  · rename_i hle
    simp at hle ⊢
    omega

theorem addMessages_eq_drop : ∀ (incoming acc : List TerminalMessage) (cap : Nat),
    acc.length ≤ cap →
    addMessages cap acc incoming =
      (acc ++ incoming).drop (acc.length + incoming.length - cap) := by
  intro incoming
  induction incoming with
  | nil =>
    intro acc cap h
    simp [addMessages, Nat.sub_eq_zero_of_le h]
  | cons m rest ih =>
    intro acc cap h
    have step : addMessages cap acc (m :: rest) =
        addMessages cap (addMessage cap acc m) rest := rfl
    rw [step, ih (addMessage cap acc m) cap (addMessage_length_le cap acc m)]
    by_cases hc : cap < acc.length + 1
    · have hm : addMessage cap acc m = (acc ++ [m]).drop (acc.length + 1 - cap) := by
        simp [addMessage]
        omega
      rw [hm]
      rw [← List.drop_append_of_le_length (by simp)]
      rw [List.drop_drop]
      have hlen : ((acc ++ [m]).drop (acc.length + 1 - cap)).length = cap := by
        simp
        omega
      rw [hlen]
      have harith : acc.length + 1 - cap + (cap + rest.length - cap) =
          acc.length + (rest.length + 1) - cap := by omega
      rw [harith]
      simp [List.append_assoc]
    · have hm : addMessage cap acc m = acc ++ [m] := by
        simp [addMessage]
        omega
      rw [hm]
      simp [List.append_assoc]
      congr 1
      omega

/-- C1 (amended): appending N+k messages to an empty MessageLog of
capacity N leaves exactly the N most recent appended messages (the
result is the input with its first k entries evicted from the head), in
original relative order. -/
theorem messageLog_append_bounded_keeps_latest (cap k : Nat)
    (ms : List TerminalMessage) (h : ms.length = cap + k) :
    addMessages cap [] ms = ms.drop k ∧ (addMessages cap [] ms).length = cap := by
  have e := addMessages_eq_drop ms [] cap (by simp)
  simp only [List.nil_append, List.length_nil, Nat.zero_add] at e
  constructor
  · rw [e]
    congr 1
    omega
  · rw [e]
    simp
    omega

theorem messageLog_append_bounded_keeps_latest_witness :
    addMessages 2 [] [mkMsg "x", mkMsg "y", mkMsg "z"] =
      [mkMsg "x", mkMsg "y", mkMsg "z"].drop 1 ∧
    (addMessages 2 [] [mkMsg "x", mkMsg "y", mkMsg "z"]).length = 2 :=
  messageLog_append_bounded_keeps_latest 2 1
    [mkMsg "x", mkMsg "y", mkMsg "z"] (by decide)

/-- C1 counterexample: with capacity N = 3 and k = 2, appending the five
messages A..E leaves the 3 most recent [C, D, E]; the claim's "the k
most recent" would be [D, E], which is not the stored log. -/
theorem messageLog_append_not_k_most_recent :
    addMessages 3 [] [mkMsg "A", mkMsg "B", mkMsg "C", mkMsg "D", mkMsg "E"] =
      [mkMsg "C", mkMsg "D", mkMsg "E"] ∧
    addMessages 3 [] [mkMsg "A", mkMsg "B", mkMsg "C", mkMsg "D", mkMsg "E"] ≠
      [mkMsg "D", mkMsg "E"] := by
  decide

/-- C5: `addCommandToHistory` is a no-op for blank commands and for a
command equal to the most recent entry (adjacent dedup only); at
capacity the oldest entry is shifted off so the length never exceeds
`max_size`; pushing ls, ls stores one entry while ls, pwd, ls stores
three. -/
theorem addCommandToHistory_dedup_and_bounded :
    ∀ (h : CommandHistory) (c : String),
      ((jsTrim c.data).isEmpty = true → addCommandToHistory h c = h) ∧
      ((jsTrim c.data).isEmpty = false → h.commands.getLast? = some c →
        (addCommandToHistory h c).commands = h.commands) ∧
      (h.commands.length ≤ h.max_size →
        (addCommandToHistory h c).commands.length ≤ h.max_size) ∧
      ((jsTrim c.data).isEmpty = false → h.commands.getLast? ≠ some c →
        h.commands.length = h.max_size →
        (addCommandToHistory h c).commands = (h.commands ++ [c]).drop 1) ∧
      (addCommandToHistory (addCommandToHistory
        createDefaultCommandHistory "ls") "ls").commands = ["ls"] ∧
      (addCommandToHistory (addCommandToHistory (addCommandToHistory
        createDefaultCommandHistory "ls") "pwd") "ls").commands =
        ["ls", "pwd", "ls"] := by
  intro h c
  refine ⟨?_, ?_, ?_, ?_, by decide, by decide⟩
  · intro hb
    simp [addCommandToHistory, hb]
  · intro hb hl
    simp [addCommandToHistory, hb, hl]
  · intro hlen
    by_cases hb : (jsTrim c.data).isEmpty
    · simp [addCommandToHistory, hb]
      exact hlen
    · by_cases hl : h.commands.getLast? = some c
      · simp [addCommandToHistory, hb, hl]
        exact hlen
      · simp [addCommandToHistory, hb, hl]
        split
        · simp
          omega
        · rename_i hle
          simp at hle ⊢
          omega
  · intro hb hl hcap
    simp [addCommandToHistory, hb, hl]
    intro hle
    omega

theorem addCommandToHistory_dedup_and_bounded_witness :
    addCommandToHistory createDefaultCommandHistory "   " =
      createDefaultCommandHistory ∧
    (addCommandToHistory ⟨["a", "b"], 2, none⟩ "c").commands =
      ((["a", "b"] : List String) ++ ["c"]).drop 1 :=
  ⟨(addCommandToHistory_dedup_and_bounded createDefaultCommandHistory "   ").1
      (by decide),
   (addCommandToHistory_dedup_and_bounded ⟨["a", "b"], 2, none⟩ "c").2.2.2.1
      (by decide) (by decide) (by decide)⟩

/-- C6: the navigation cursor starts at `None`; `getPreviousCommand`
starts from the newest entry when the cursor is `None`, steps toward
older entries and does not move past the oldest; `getNextCommand` steps
toward newer entries and, invoked at the newest entry, resets the cursor
to `None` and returns the empty string. -/
theorem commandHistory_navigation_cursor :
    createDefaultCommandHistory.current_index = none ∧
    ∀ (h : CommandHistory),
      (h.current_index = none → h.commands ≠ [] →
        getPreviousCommand h =
          (h.commands.get? (h.commands.length - 1),
           { h with current_index := some (h.commands.length - 1) })) ∧
      (∀ i, h.current_index = some i → 0 < i → h.commands ≠ [] →
        getPreviousCommand h =
          (h.commands.get? (i - 1), { h with current_index := some (i - 1) })) ∧
      (h.current_index = some 0 → getPreviousCommand h = (none, h)) ∧
      (h.current_index = none → getNextCommand h = (none, h)) ∧
      (∀ i, h.current_index = some i → i < h.commands.length - 1 →
        getNextCommand h =
          (h.commands.get? (i + 1), { h with current_index := some (i + 1) })) ∧
      (∀ i, h.current_index = some i → i = h.commands.length - 1 →
        getNextCommand h = (some "", { h with current_index := none })) := by
  refine ⟨rfl, ?_⟩
  intro h
  refine ⟨?_, ?_, ?_, ?_, ?_, ?_⟩
  · intro hidx hne
    have hlen : ¬h.commands.length = 0 := by
      simpa using hne
    simp [getPreviousCommand, hidx, hlen]
  · intro i hidx hpos hne
    have hlen : ¬h.commands.length = 0 := by
      simpa using hne
    simp [getPreviousCommand, hidx, hlen, hpos]
  · intro hidx
    by_cases hz : h.commands.length = 0
    · simp [getPreviousCommand, hz]
    · simp [getPreviousCommand, hz, hidx]
  · intro hidx
    simp [getNextCommand, hidx]
  · intro i hidx hlt
    simp [getNextCommand, hidx, hlt]
  · intro i hidx heq
    simp only [getNextCommand, hidx]
    rw [if_neg (by omega)]

theorem commandHistory_navigation_cursor_witness :
    getPreviousCommand ⟨["a", "b", "c"], 100, none⟩ =
      ((["a", "b", "c"] : List String).get?
         ((["a", "b", "c"] : List String).length - 1),
       ⟨["a", "b", "c"], 100,
        some ((["a", "b", "c"] : List String).length - 1)⟩) ∧
    getNextCommand ⟨["a", "b", "c"], 100, some 2⟩ =
      (some "", ⟨["a", "b", "c"], 100, none⟩) :=
  ⟨(commandHistory_navigation_cursor.2 ⟨["a", "b", "c"], 100, none⟩).1
      rfl (by decide),
   (commandHistory_navigation_cursor.2 ⟨["a", "b", "c"], 100, some 2⟩).2.2.2.2.2
      2 rfl (by decide)⟩

theorem replaceAllGo_id (p : Char) (ps rep : List Char) :
    ∀ (fuel : Nat) (l : List Char), p ∉ l →
      replaceAllGo fuel (p :: ps) rep l = l := by
  intro fuel
  induction fuel with
  | zero =>
    intro l _
    rfl
  | succ n ih =>
    intro l hp
    cases l with
    | nil => rfl
    | cons c rest =>
      have hpc : (p == c) = false := by
        simp
        intro e
        exact absurd (e ▸ List.mem_cons_self p rest) (e ▸ hp)
      have hrest : p ∉ rest := fun hm => hp (List.mem_cons_of_mem c hm)
      simp [replaceAllGo, headMatches, hpc, ih rest hrest]

theorem replaceAll_id (p : Char) (ps rep : List Char) (l : List Char)
    (hp : p ∉ l) : replaceAll (p :: ps) rep l = l :=
  replaceAllGo_id p ps rep l.length l hp

/-- C7 (amended): for every ASCII string that contains none of the
glyph-mapped control characters CR, LF and TAB, the displayed content of
a message sent in Text mode with line ending `None` is the original
string: `getMessageDisplayContent (appendLineEnding None s) = s`.  (The
stored content itself is always the raw text; only the display transform
is applied, and it touches only CR, LF and TAB.) -/
theorem display_roundtrip_ascii_no_control (s : List Char)
    (hascii : ∀ c ∈ s, c.toNat < 128)
    (hr : '\r' ∉ s) (hn : '\n' ∉ s) (ht : '\t' ∉ s) :
    getMessageDisplayContent (appendLineEnding LineEndingChoice.NoEnding s) = s := by
  have h0 : appendLineEnding LineEndingChoice.NoEnding s = s := rfl
  rw [h0]
  unfold getMessageDisplayContent
  rw [replaceAll_id '\r' ['\n'] ['↵', '\n'] s hr]
  rw [replaceAll_id '\r' [] ['↵'] s hr]
  rw [replaceAll_id '\n' [] ['↵', '\n'] s hn]
  rw [replaceAll_id '\t' [] ['→'] s ht]

theorem display_roundtrip_ascii_no_control_witness :
    (∀ c ∈ ("AT+GMR" : String).data, c.toNat < 128) ∧
    getMessageDisplayContent
      (appendLineEnding LineEndingChoice.NoEnding ("AT+GMR" : String).data) =
      ("AT+GMR" : String).data :=
  ⟨by decide,
   display_roundtrip_ascii_no_control ("AT+GMR" : String).data
     (by decide) (by decide) (by decide) (by decide)⟩

/-- C7 counterexample: the display transform is not the identity on the
ASCII string consisting of a single LF — `decode(encode("\n", Text,
None))` renders as the glyph marker followed by LF, not as "\n" — so the
round-trip equation fails for ASCII strings containing control
characters; and the NUL character is not glyph-mapped at all: it is
displayed raw. -/
theorem display_not_identity_on_newline :
    getMessageDisplayContent
      (appendLineEnding LineEndingChoice.NoEnding ['\n']) = ['↵', '\n'] ∧
    getMessageDisplayContent
      (appendLineEnding LineEndingChoice.NoEnding ['\n']) ≠ ['\n'] ∧
    getMessageDisplayContent ['\x00'] = ['\x00'] := by
  decide

/-- C8 (amended): a query that is empty (or whitespace-only, which the
code treats identically) returns the full log unfiltered; a query with a
non-whitespace character returns exactly the subsequence of messages
whose content contains it — compared case-insensitively unless
`caseSensitive` is requested — preserving the original order. -/
theorem searchMessages_filter_spec :
    ∀ (msgs : List TerminalMessage) (q : String) (cs : Bool),
      ((jsTrim q.data).isEmpty = true → searchMessages msgs q cs = msgs) ∧
      ((jsTrim q.data).isEmpty = false →
        List.Sublist (searchMessages msgs q cs) msgs ∧
        (∀ m, m ∈ searchMessages msgs q cs ↔
          m ∈ msgs ∧ messageMatches q cs m = true)) := by
  intro msgs q cs
  constructor
  · intro hb
    simp [searchMessages, hb]
  · intro hb
    constructor
    · simp only [searchMessages, hb, Bool.false_eq_true, if_false]
      exact List.filter_sublist msgs
    · intro m
      simp [searchMessages, hb, List.mem_filter]

theorem searchMessages_filter_spec_witness :
    searchMessages [mkMsg "hello"] "" false = [mkMsg "hello"] ∧
    (mkMsg "hello" ∈ searchMessages [mkMsg "hello"] "ELL" false ↔
      mkMsg "hello" ∈ [mkMsg "hello"] ∧
      messageMatches "ELL" false (mkMsg "hello") = true) :=
  ⟨(searchMessages_filter_spec [mkMsg "hello"] "" false).1 (by decide),
   ((searchMessages_filter_spec [mkMsg "hello"] "ELL" false).2 (by decide)).2
     (mkMsg "hello")⟩

/-- C8 counterexample: for the whitespace-only (non-empty) query " " the
code returns the full log, not the subsequence of messages whose content
contains " " — a message without any space is still returned. -/
theorem searchMessages_blank_query_returns_all :
    searchMessages [mkMsg "ab"] " " false = [mkMsg "ab"] ∧
    List.filter (fun m => messageMatches " " false m) [mkMsg "ab"] = [] ∧
    searchMessages [mkMsg "ab"] " " false ≠
      List.filter (fun m => messageMatches " " false m) [mkMsg "ab"] := by
  decide

/-- C9: `actions.connect` with a serial form whose port is empty (or
whitespace-only) stores a configuration error and returns before the
`connect_device` command is issued: no transport is touched. -/
theorem connectValidate_empty_serial_port_rejected :
    ∀ (form : ConnectionFormConfig),
      form.kind = ConnectionKind.serial →
      jsTrim ((form.serialPort.getD "").data) = [] →
      connectValidate form =
        ConnectValidation.rejected "serial port not selected" := by
  intro form hk hp
  simp [connectValidate, hk, validateSerialPort, hp]

theorem connectValidate_empty_serial_port_rejected_witness :
    connectValidate
      ⟨"c1", "conn", ConnectionKind.serial, some "", none,
       some "localhost", some 8080⟩ =
      ConnectValidation.rejected "serial port not selected" :=
  connectValidate_empty_serial_port_rejected
    ⟨"c1", "conn", ConnectionKind.serial, some "", none,
     some "localhost", some 8080⟩ rfl (by decide)

/-- C10 (amended): when the input with the code's separator class
removed (every JavaScript whitespace character, dash and colon) still
contains a non-hex character, `parseHexInput` returns the original input
string unchanged — passed through as literal text, neither rejected with
an error result nor stripped. -/
theorem parseHexInput_invalid_passthrough :
    ∀ (l : List Char),
      (stripHexSeparators l).all isHexDigitChar = false →
      parseHexInput l = l := by
  intro l hbad
  simp [parseHexInput, hbad]

theorem parseHexInput_invalid_passthrough_witness :
    parseHexInput ("4G".data) = "4G".data :=
  parseHexInput_invalid_passthrough ("4G".data) (by decide)

/-- C10 counterexample: the claim's separator list (spaces, dashes,
colons) is narrower than the code's `\s` class.  The input "41\t42"
contains none of the claim's separators, so its claim-stripped form
still contains the non-hex TAB and the claim demands pass-through; but
the code strips the TAB as whitespace and converts to the bytes
[0x41, 0x42] instead of returning the input unchanged. -/
theorem parseHexInput_tab_not_passthrough :
    ("41\t42".data.filter (fun c => !(c == ' ' || c == '-' || c == ':'))) =
      "41\t42".data ∧
    ('\t' ∈ "41\t42".data) ∧
    isHexDigitChar '\t' = false ∧
    parseHexInput ("41\t42".data) ≠ "41\t42".data ∧
    (parseHexInput ("41\t42".data)).map Char.toNat = [0x41, 0x42] := by
  decide


theorem stripHexSeparators_all_hex (l : List Char)
    (h : l.all isHexDigitChar = true) : stripHexSeparators l = l := by
  refine List.filter_eq_self.mpr ?_
  intro c hc
  have hcx := (List.all_eq_true.mp h) c hc
  unfold isHexDigitChar at hcx
  unfold isHexSeparator isJsWhitespace
  simp at hcx ⊢
  omega

theorem stripHexSeparators_idem (l : List Char) :
    stripHexSeparators (stripHexSeparators l) = stripHexSeparators l := by
  unfold stripHexSeparators
  rw [List.filter_filter]
  congr 1
  funext c
  rw [Bool.and_self]

theorem pairBytes_append_nibble :
    ∀ (l : List Char) (c : Char), l.length % 2 = 0 →
      pairBytes (l ++ [c]) = pairBytes l
  | [], _, _ => rfl
  | [_], _, h => by simp at h
  | c1 :: c2 :: rest, c, h => by
    have hr : rest.length % 2 = 0 := by
      simp [List.length_cons] at h
      omega
    have ih := pairBytes_append_nibble rest c hr
    simp only [List.cons_append, pairBytes, List.append_eq] at ih ⊢
    rw [ih]

/-- C2 (amended): in Hex mode, `parseHexInput` strips the separator
characters (whitespace, dashes, colons), pairs the remaining hex digits
into bytes and silently drops a trailing incomplete nibble; in
particular "41 42-43:44" yields the bytes [0x41, 0x42, 0x43, 0x44] and
"414" yields the single byte [0x41] (the trailing nibble "4" dropped). -/
theorem parseHexInput_strips_separators_pairs_bytes :
    ((parseHexInput ("41 42-43:44".data)).map Char.toNat =
      [0x41, 0x42, 0x43, 0x44]) ∧
    ((parseHexInput ("414".data)).map Char.toNat = [0x41]) ∧
    (∀ l : List Char, (stripHexSeparators l).all isHexDigitChar = true →
      parseHexInput l = parseHexInput (stripHexSeparators l)) ∧
    (∀ (l : List Char) (c : Char), l.all isHexDigitChar = true →
      isHexDigitChar c = true → l.length % 2 = 0 →
      parseHexInput (l ++ [c]) = parseHexInput l) := by
  refine ⟨by decide, by decide, ?_, ?_⟩
  · intro l hhex
    simp [parseHexInput, hhex, stripHexSeparators_idem]
  · intro l c hl hc heven
    have hall : (l ++ [c]).all isHexDigitChar = true := by
      simp [List.all_append, hl, hc]
    have hs1 : stripHexSeparators (l ++ [c]) = l ++ [c] :=
      stripHexSeparators_all_hex _ hall
    have hs2 : stripHexSeparators l = l := stripHexSeparators_all_hex _ hl
    simp [parseHexInput, hs1, hs2, hall, hl,
      pairBytes_append_nibble l c heven]

theorem parseHexInput_strips_separators_pairs_bytes_witness :
    parseHexInput ("41".data ++ ['4']) = parseHexInput ("41".data) ∧
    parseHexInput ("4 1".data) = parseHexInput (stripHexSeparators ("4 1".data)) :=
  ⟨parseHexInput_strips_separators_pairs_bytes.2.2.2 ("41".data) '4'
      (by decide) (by decide) (by decide),
   parseHexInput_strips_separators_pairs_bytes.2.2.1 ("4 1".data) (by decide)⟩

/-- C2 counterexample: `encode("414", Hex, None)` produces the single
byte [0x41] (the pairing loop takes "41" and skips the lone trailing
"4"), not the two bytes [0x41, 0x42] stated by the claim. -/
theorem parseHexInput_414_single_byte :
    (parseHexInput ("414".data)).map Char.toNat = [0x41] ∧
    (parseHexInput ("414".data)).map Char.toNat ≠ [0x41, 0x42] := by
  decide

/-- C3 (spec-modelled): `connect` while the status is `Connecting` or
`Connected` fails immediately with `AlreadyConnected` and leaves the
session state (current connection, status, transport) unchanged; from
`Disconnected` it transitions to `Connecting` and, on open success, to
`Connected`; a resting state that changes at all must have started
`Disconnected`. -/
theorem connectMgr_already_connected_exclusive :
    ∀ (cfg : ConnectionConfigSpec) (openOk : Bool) (st : ManagerState),
      ((st.status = ConnStatus.Connecting ∨ st.status = ConnStatus.Connected) →
        connectMgr cfg openOk st =
          (Except.error ConnectionErrorKind.AlreadyConnected, [st])) ∧
      (st.status = ConnStatus.Disconnected →
        (connectMgr cfg openOk st).2.head? =
          some { st with status := ConnStatus.Connecting } ∧
        (openOk = true →
          (connectMgr cfg openOk st).1 = Except.ok () ∧
          (connectMgr cfg openOk st).2.getLast? =
            some { status := ConnStatus.Connected, current := some cfg,
                   transport := some cfg.variant })) ∧
      (st.resting → (connectMgr cfg openOk st).2 ≠ [st] →
        st.status = ConnStatus.Disconnected) := by
  intro cfg openOk st
  refine ⟨?_, ?_, ?_⟩
  · intro hbusy
    simp [connectMgr, hbusy]
  · intro hd
    have hnb : ¬(st.status = ConnStatus.Connecting ∨
        st.status = ConnStatus.Connected) := by
      simp [hd]
    cases openOk with
    | true => simp [connectMgr, hnb]
    | false => simp [connectMgr, hnb]
  · intro hrest hne
    cases hst : st.status with
    | Disconnected => rfl
    | Connecting =>
      have hb : connectMgr cfg openOk st =
          (Except.error ConnectionErrorKind.AlreadyConnected, [st]) := by
        simp [connectMgr, hst]
      exact absurd (congrArg Prod.snd hb) hne
    | Connected =>
      have hb : connectMgr cfg openOk st =
          (Except.error ConnectionErrorKind.AlreadyConnected, [st]) := by
        simp [connectMgr, hst]
      exact absurd (congrArg Prod.snd hb) hne
    | ErrorStatus r => exact absurd hst (hrest r)

theorem connectMgr_already_connected_exclusive_witness :
    connectMgr
        ⟨"p1", "dev", ConfigVariant.Serial
          ⟨"COM3", 115200, 8, "none", 1, "none", 1000⟩⟩ true
        ⟨ConnStatus.Connected, none, none⟩ =
      (Except.error ConnectionErrorKind.AlreadyConnected,
       [⟨ConnStatus.Connected, none, none⟩]) ∧
    (connectMgr
        ⟨"p1", "dev", ConfigVariant.Serial
          ⟨"COM3", 115200, 8, "none", 1, "none", 1000⟩⟩ true
        ⟨ConnStatus.Disconnected, none, none⟩).1 = Except.ok () :=
  ⟨(connectMgr_already_connected_exclusive _ true
      ⟨ConnStatus.Connected, none, none⟩).1 (Or.inr rfl),
   (((connectMgr_already_connected_exclusive _ true
      ⟨ConnStatus.Disconnected, none, none⟩).2.1 rfl).2 rfl).1⟩

/-- C4: the `max_reconnect_attempts` input handler evaluates
`parseInt(value) || 3`; because the number 0 is falsy in JavaScript, a
caller-entered "0" (the documented "unlimited" setting, `min="0"` on the
very same input) is replaced by the default 3, so the value 0 is never
preserved. -/
theorem maxReconnectAttemptsInput_zero_replaced_by_default :
    maxReconnectAttemptsInput "0" = 3 ∧
    maxReconnectAttemptsInput "0" ≠ 0 ∧
    maxReconnectAttemptsInput "5" = 5 := by
  decide
